import Mathlib

/-!
Shallow embedding of the Redis-backed distributed types library
(`dtypes`): the server-side Lua coordination scripts and the client-side
handle logic, translated from the Rust source
(`src/redis/{generic,helper,mutex,set_load,list,barrier}.rs` and
`src/redis/rwlock/{constants,lock}.rs`), together with theorems settling
the specification's claims about them.

Conventions of the embedding:
* Redis stores strings; server state is modelled per logical key family
  as `Option String` fields (a missing key is `none`).
* The payload codec (serde_json in the source) is an explicit `Codec`
  parameter; claims that need the round trip take it as a hypothesis.
* A Rust `panic!`/`unwrap` failure is modelled as an explicit outcome
  constructor (`panicked`) or as `none`, never silently dropped.
* Each Lua script runs atomically at the server, so it is one Lean
  function from pre-state to (post-state, reply).
-/

namespace DTypes

/-- A pluggable text codec for payloads (serde_json in the source). -/
structure Codec (α : Type) where
  encode : α → String
  decode : String → Option α

/-- Decimal digit test on a character. -/
def isDigitChar (c : Char) : Bool :=
  decide (48 ≤ c.toNat ∧ c.toNat ≤ 57)

/-- Value of a decimal numeral. -/
def parseDecimal (l : List Char) : Nat :=
  l.foldl (fun acc c => acc * 10 + (c.toNat - 48)) 0

/-- Decimal decoding of a natural number (the serde_json round trip for
an unsigned integer payload). -/
def natDecode (s : String) : Option Nat :=
  if s.data.isEmpty then none
  else if s.data.all isDigitChar then some (parseDecimal s.data) else none

/-- Concrete codec used for witnesses: natural numbers as decimal text. -/
def natCodec : Codec Nat :=
  ⟨fun n => toString n, natDecode⟩

/-- The plain-value keyspace of the server: key to stored string. -/
def Server : Type := String → Option String

def Server.empty : Server := fun _ => none

/-- `SET k v` on the plain keyspace. -/
def Server.setKey (srv : Server) (k v : String) : Server :=
  fun k2 => if k2 = k then some v else srv k2

/-- `DEL k` on the plain keyspace. -/
def Server.delKey (srv : Server) (k : String) : Server :=
  fun k2 => if k2 = k then none else srv k2

/-- A `Generic<T>` handle: bound key plus local cache (src/redis/generic.rs). -/
structure Cell (α : Type) where
  key : String
  cache : Option α
deriving DecidableEq

/-- Result of `Generic::try_get`: the raw `GET` either misses (the redis
crate surfaces a nil reply as `Err`, which the source maps to `None`),
yields a payload that deserializes, or yields one that makes
`serde_json::from_str` panic. -/
inductive ReadRes (α : Type) where
  | missing : ReadRes α
  | value : α → ReadRes α
  | corrupt : ReadRes α
deriving DecidableEq

/-- Outcome of `Generic::acquire` (source returns `&T` and panics on a
missing value; `err_not_found` is the outcome the spec describes and is
never produced by the code). -/
inductive AcquireRes (α : Type) where
  | ok : α → AcquireRes α
  | panicked : AcquireRes α
  | err_not_found : AcquireRes α
deriving DecidableEq

/-- `Generic::try_get` (src/redis/generic.rs): `GET key`, `Err` becomes
`None`, a payload that fails to deserialize panics. -/
def Generic.try_get (c : Codec α) (srv : Server) (key : String) : ReadRes α :=
  match srv key with
  | none => .missing
  | some s =>
    match c.decode s with
    | some a => .value a
    | none => .corrupt

/-- `Generic::store`: serialize, unconditional `SET`, cache becomes `Some`. -/
def Generic.store (c : Codec α) (srv : Server) (cell : Cell α) (v : α) :
    Server × Cell α :=
  (srv.setKey cell.key (c.encode v), { cell with cache := some v })

/-- `Generic::acquire`: `cache = try_get(); cache.as_ref().unwrap()`.
A missing key sets the cache to `None` and then panics on the unwrap;
a corrupt payload panics inside `try_get` before the assignment. -/
def Generic.acquire (c : Codec α) (srv : Server) (cell : Cell α) :
    Cell α × AcquireRes α :=
  match Generic.try_get c srv cell.key with
  | .value a => ({ cell with cache := some a }, .ok a)
  | .missing => ({ cell with cache := none }, .panicked)
  | .corrupt => (cell, .panicked)

/-- `Generic::into_inner`: `DEL key` first, then `cache.take().expect(..)`.
The second component is the returned value; `none` means the expect
panicked (after the delete already happened). -/
def Generic.into_inner (srv : Server) (cell : Cell α) :
    Server × Option α :=
  (srv.delKey cell.key, cell.cache)

/-- `Generic::with_value`: fresh handle, then `store(value)`. -/
def Generic.with_value (c : Codec α) (srv : Server) (key : String) (v : α) :
    Server × Cell α :=
  Generic.store c srv ⟨key, none⟩ v

/-- `Generic::with_load`: fresh handle with `cache = try_get()`;
`none` models the deserialize panic during construction. -/
def Generic.with_load (c : Codec α) (srv : Server) (key : String) :
    Option (Cell α) :=
  match Generic.try_get c srv key with
  | .value a => some ⟨key, some a⟩
  | .missing => some ⟨key, none⟩
  | .corrupt => none

/-- `Generic::cached`: the local cache, no I/O. -/
def Generic.cached (cell : Cell α) : Option α :=
  cell.cache

/-- `apply_operator` (src/redis/helper.rs): take the cache; apply `func`
to it and the right-hand value when present, otherwise use the
right-hand value itself; then `store` the result. -/
def apply_operator (c : Codec α) (f : α → α → α) (srv : Server)
    (me : Cell α) (rhs : α) : Server × Cell α :=
  let value :=
    match me.cache with
    | some v => f v rhs
    | none => rhs
  Generic.store c srv { me with cache := none } value

/-- A binary value operation between two cells
(`impl ops::Add<Generic<T>> for Generic<T>` and the six analogous
impls in src/redis/generic.rs): `self op rhs.into_inner()`.
The right-hand key is deleted by `into_inner` before anything else;
if the right-hand cache is empty the expect panics (second component
`none`) with the delete already done. -/
def bin_op_cells (c : Codec α) (f : α → α → α) (srv : Server)
    (lhs rhs : Cell α) : Server × Option (Cell α) :=
  let p := Generic.into_inner srv rhs
  match p.2 with
  | none => (p.1, none)
  | some rv =>
    let q := apply_operator c f p.1 lhs rv
    (q.1, some q.2)

/-- `impl ops::AddAssign<T> for Generic<T>`: mutate the cache in place
(using the right-hand value itself when the cache is empty), then
`pushes_to_redis` serializes the cache (serde_json writes `Some v` as
`v`) and `SET`s it. -/
def add_assign (c : Codec α) (addFn : α → α → α) (srv : Server)
    (me : Cell α) (rhs : α) : Server × Cell α :=
  match me.cache with
  | some v =>
    let v2 := addFn v rhs
    (srv.setKey me.key (c.encode v2), { me with cache := some v2 })
  | none =>
    (srv.setKey me.key (c.encode rhs), { me with cache := some rhs })

/-- `impl ops::SubAssign<T> for Generic<T>`: same shape as `add_assign`
with the subtraction function. -/
def sub_assign (c : Codec α) (subFn : α → α → α) (srv : Server)
    (me : Cell α) (rhs : α) : Server × Cell α :=
  match me.cache with
  | some v =>
    let v2 := subFn v rhs
    (srv.setKey me.key (c.encode v2), { me with cache := some v2 })
  | none =>
    (srv.setKey me.key (c.encode rhs), { me with cache := some rhs })

/-! ### Mutex (src/redis/mutex.rs) -/

/-- Server state touched by the mutex scripts for one key `K`:
the value under `K` and the token string under `K:lock`. -/
structure MxState where
  value : Option String
  lock : Option String
deriving DecidableEq

/-- `LockError` (src/redis/mutex.rs). -/
inductive LockError where
  | lock_failed : LockError
  | unlock_failed : LockError
  | no_connection : LockError
  | lock_expired : Nat → LockError
  | redis_err : LockError
deriving DecidableEq

/-- `LOCK_SCRIPT`: if `K:lock` is unset or already holds this token,
(re)set it (with the lease ttl, invisible in the no-expiry model) and
return 1, else return 0. -/
def lock_script (st : MxState) (uuid : String) : MxState × Nat :=
  match st.lock with
  | none => ({ st with lock := some uuid }, 1)
  | some l =>
    if l = uuid then ({ st with lock := some uuid }, 1) else (st, 0)

/-- `STORE_SCRIPT`: write `K` only if `K:lock` equals the token; reply
1 on write, 0 otherwise. -/
def store_script (st : MxState) (uuid : String) (v : String) : MxState × Nat :=
  if st.lock = some uuid then ({ st with value := some v }, 1) else (st, 0)

/-- `LOAD_SCRIPT`: return the value under `K` only if `K:lock` equals
the token, nil otherwise (also nil when `K` itself is missing). -/
def load_script (st : MxState) (uuid : String) : Option String :=
  if st.lock = some uuid then st.value else none

/-- `DROP_SCRIPT`: compare-and-delete of `K:lock`. -/
def drop_script (st : MxState) (uuid : String) : MxState × Nat :=
  if st.lock = some uuid then ({ st with lock := none }, 1) else (st, 0)

/-- Outcome of a guarded read (`Guard::acquire` returns `&T`; the source
panics when `try_get` comes back `None`). `err_lock_expired` is the
outcome the spec describes for a stale token; the code never produces
it. -/
inductive GuardReadRes (α : Type) where
  | ok : α → GuardReadRes α
  | panicked : GuardReadRes α
  | err_lock_expired : Nat → GuardReadRes α
deriving DecidableEq

/-- `Guard::store` (src/redis/mutex.rs lines 287-304): run `STORE_SCRIPT`
with the guard's uuid; a 0 reply becomes `LockExpired(uuid)` without
touching the cache, a 1 reply updates the cache. -/
def Guard.store (c : Codec α) (uuid : Nat) (st : MxState) (cell : Cell α)
    (v : α) : MxState × Cell α × Except LockError Unit :=
  let r := store_script st (toString uuid) (c.encode v)
  if r.2 = 0 then (r.1, cell, .error (.lock_expired uuid))
  else (r.1, { cell with cache := some v }, .ok ())

/-- `Guard::try_get`: run `LOAD_SCRIPT`; a nil reply (stale token or
missing value) is `None`; the literal string "nil" is also mapped to
`None`; a payload that fails to deserialize panics (modelled `none`,
the guarded read panics either way). -/
def Guard.try_get (c : Codec α) (uuid : Nat) (st : MxState) : Option α :=
  match load_script st (toString uuid) with
  | none => none
  | some r => if r = "nil" then none else c.decode r

/-- `Guard::acquire` (src/redis/mutex.rs lines 309-333):
`cache = try_get(); cache.as_ref().unwrap()` — a `None` from the script
panics instead of surfacing an error value. -/
def Guard.acquire (c : Codec α) (uuid : Nat) (st : MxState) (cell : Cell α) :
    Cell α × GuardReadRes α :=
  match Guard.try_get c uuid st with
  | some a => ({ cell with cache := some a }, .ok a)
  | none => ({ cell with cache := none }, .panicked)

/-! ### SetLoad (src/redis/set_load.rs) -/

/-- Server state for one `SetLoad` key: the value under `K` and the
ordering number under `K:order`, both stored as strings (Redis stores
strings; the script writes `ARGV[2]` verbatim). -/
structure SLState where
  value : Option String
  order : Option String
deriving DecidableEq

/-- Lua `<` on two strings: byte-wise lexicographic comparison (the C
locale `strcoll`). This is what `current_order < order` performs in
`SET_LOAD_SCRIPT`, since both operands are Lua strings. -/
def luaStrLt : List Char → List Char → Bool
  | [], [] => false
  | [], _ :: _ => true
  | _ :: _, [] => false
  | a :: as, b :: bs =>
    if a.toNat < b.toNat then true
    else if b.toNat < a.toNat then false
    else luaStrLt as bs

/-- `SET_LOAD_SCRIPT` (src/redis/set_load.rs lines 20-30): read
`K:order`; if it is missing or compares less than `ARGV[2]` (Lua string
comparison), write both `K:order` and `K`; reply with the current value
of `K` and the current order. -/
def set_load_script (st : SLState) (order v : String) :
    SLState × (Option String × String) :=
  match st.order with
  | none =>
    ({ value := some v, order := some order }, (some v, order))
  | some cur =>
    if luaStrLt cur.data order.data then
      ({ value := some v, order := some order }, (some v, order))
    else
      (st, (st.value, cur))

/-- Client half of a `SetLoad<T>` handle: the local counter and the
wrapped cell's cache. -/
structure SLClient (α : Type) where
  counter : Nat
  cache : Option α
deriving DecidableEq

/-- How the redis crate decodes the script's order reply into `usize`
(the replies are decimal numerals written by clients). -/
def parseOrder (s : String) : Nat :=
  parseDecimal s.data

/-- `SetLoad::store` (src/redis/set_load.rs lines 114-126): increment
the local counter, invoke `SET_LOAD_SCRIPT` once with the counter and
the serialized value, and return `Ok` (caching the value) exactly when
the reply value is present, equals the serialization, and the counter
is at least the replied order; otherwise `OrderError`. The `Bool`
result is `true` for `Ok`. -/
def SetLoad.store (c : Codec α) (cl : SLClient α) (st : SLState) (v : α) :
    SLClient α × SLState × Bool :=
  let cnt := cl.counter + 1
  let vj := c.encode v
  let r := set_load_script st (toString cnt) vj
  match r.2.1 with
  | some rv =>
    if parseOrder r.2.2 ≤ cnt ∧ rv = vj then
      ({ counter := cnt, cache := some v }, r.1, true)
    else
      ({ cl with counter := cnt }, r.1, false)
  | none => ({ cl with counter := cnt }, r.1, false)

/-! ### RwLock (src/redis/rwlock/constants.rs, lock.rs) -/

/-- Server state for one `RwLock` key: the writer lock under `K:lock`,
the reader presence keys `K:reader_locks:U` (with the expiry they were
created with), and the writer intent keys `K:writer_waiting_list:U`. -/
structure RwState where
  lock : Option String
  readerLocks : List (String × Nat)
  writerWaiting : List String
  value : Option String
deriving DecidableEq

/-- Reply of one script invocation: a numeric reply, or a Lua runtime
error (surfaced by the redis crate as `Err`, which the caller unwraps —
a panic). -/
inductive ScriptRes where
  | ret : Nat → ScriptRes
  | err : ScriptRes
deriving DecidableEq

/-- `READER_LOCK` (src/redis/rwlock/constants.rs lines 14-25): reply 0
if `K:lock` exists; reply 0 if the scan finds any
`K:writer_waiting_list:*` key; otherwise `SET K:reader_locks:U 1 EX ttl`
and reply 1. `ttl` is `ARGV[3]`; when the invocation passes no third
argument it is nil and the `SET ... EX nil` raises a Lua error. -/
def reader_lock_script (st : RwState) (uuid : String) (ttl : Option Nat) :
    RwState × ScriptRes :=
  if st.lock.isSome then (st, .ret 0)
  else if st.writerWaiting ≠ [] then (st, .ret 0)
  else
    match ttl with
    | none => (st, .err)
    | some t =>
      ({ st with readerLocks := (uuid, t) :: st.readerLocks }, .ret 1)

/-- One iteration of `RwLock::read`'s spin loop
(src/redis/rwlock/lock.rs lines 94-134): `execute_script` passes only
the key and the uuid to `READER_LOCK`, so the script's `ARGV[3]` (the
ttl) is nil. -/
def rwlock_read_invoke (st : RwState) (uuid : Nat) : RwState × ScriptRes :=
  reader_lock_script st (toString uuid) none

/-! ### CachedList (src/redis/list.rs) -/

/-- A `ListCache<T>` handle together with the server list it mirrors. -/
structure LCState (α : Type) where
  server : List α
  cache : List α
deriving DecidableEq

/-- `VecDeque::insert` at an index (used by `ListCache::insert`). -/
def dequeInsert : Nat → α → List α → List α
  | 0, v, l => v :: l
  | _ + 1, v, [] => [v]
  | n + 1, v, x :: xs => x :: dequeInsert n v xs

/-- `ListCache::push_back (ok := whether the server RPUSH succeeds)`:
`self.list.push_back(&val)` runs first (`Cmd::execute` panics on
failure, so on a failed call the cache line is never reached), then
`self.cache.push_back(val)`. -/
def lc_push_back (ok : Bool) (s : LCState α) (v : α) : LCState α :=
  if ok then { server := s.server ++ [v], cache := s.cache ++ [v] } else s

/-- `ListCache::push_front`: server LPUSH first (panic on failure),
then the cache. -/
def lc_push_front (ok : Bool) (s : LCState α) (v : α) : LCState α :=
  if ok then { server := v :: s.server, cache := v :: s.cache } else s

/-- `ListCache::pop_back`: `self.list.pop_back()` issues RPOP but
builds its result with `.ok()`, swallowing a failure; the cache then
pops regardless. -/
def lc_pop_back (ok : Bool) (s : LCState α) : LCState α :=
  { server := if ok then s.server.dropLast else s.server,
    cache := s.cache.dropLast }

/-- `ListCache::pop_front`: LPOP with the failure swallowed the same
way; the cache pops regardless. -/
def lc_pop_front (ok : Bool) (s : LCState α) : LCState α :=
  { server := if ok then s.server.tail else s.server,
    cache := s.cache.tail }

/-- `ListCache::insert` (src/redis/list.rs lines 238-241): the cache is
mutated FIRST (`self.cache.insert(index, val)`); only then is
`self.list.push_back(self.cache.get(index).unwrap())` issued (an RPUSH
of the inserted element — to the back, not at the index). On a failed
server call the cache keeps the inserted element. -/
def lc_insert (ok : Bool) (s : LCState α) (i : Nat) (v : α) : LCState α :=
  let cache2 := dequeInsert i v s.cache
  if ok then
    { server := s.server ++ [(cache2.get? i).getD v], cache := cache2 }
  else
    { s with cache := cache2 }

/-! ### Barrier (src/redis/barrier.rs) -/

/-- Server state of one barrier generation: the set of live
`K:waiting:*` tokens and the `K:leader` token. Modelled without TTL
expiry (every waiter refreshes within the ttl); the waiting list is
kept duplicate-free, matching the key set. -/
structure BState where
  waiting : List Nat
  leader : Option Nat
deriving DecidableEq

/-- `SET K:waiting:U 1 EX ttl`: the key set gains `U` (re-setting an
existing key leaves the set unchanged). -/
def addWaiting (u : Nat) (w : List Nat) : List Nat :=
  if u ∈ w then w else u :: w

/-- `WAITING_SCRIPT` (src/redis/barrier.rs lines 12-45): refresh own
waiting key; if a leader exists reply 2 (own token) or 1; otherwise
count the waiting keys, reply 0 below the quorum `n`, and at quorum
elect self leader via `SET NX` (which, the script being atomic and the
leader nil here, succeeds) and reply 2. -/
def waiting_script (n u : Nat) (s : BState) : BState × Nat :=
  let w := addWaiting u s.waiting
  match s.leader with
  | some l => ({ waiting := w, leader := some l }, if l = u then 2 else 1)
  | none =>
    if w.length < n then ({ waiting := w, leader := none }, 0)
    else ({ waiting := w, leader := some u }, 2)

/-- A fresh barrier generation: no waiting keys, no leader. -/
def BState.init : BState := ⟨[], none⟩

/-- A trace of `WAITING_SCRIPT` invocations: for each invoking token,
the entry records the token, the script's reply, and the server state
right after the invocation. -/
def runBarrier (n : Nat) : BState → List Nat → List (Nat × Nat × BState)
  | _, [] => []
  | s, u :: us =>
    let p := waiting_script n u s
    (u, p.2, p.1) :: runBarrier n p.1 us

/-- The first non-zero script reply a trace gives to token `t`. -/
def firstNonzero (t : Nat) (tr : List (Nat × Nat × BState)) : Option Nat :=
  (tr.filter (fun e => decide (e.1 = t ∧ e.2.1 ≠ 0))).head?.map
    (fun e => e.2.1)

/-- `Barrier::wait` (src/redis/barrier.rs lines 210-232) loops until
the script replies non-zero and returns `is_leader = (reply == 2)`.
For a token `t` in a trace, its wait outcome is the first non-zero
reply the trace gives it. -/
def waitOutcome (n : Nat) (us : List Nat) (t : Nat) : Option Nat :=
  firstNonzero t (runBarrier n BState.init us)

/-- `BarrierWaitResult::is_leader` of a completed wait. -/
def isLeaderOutcome (n : Nat) (us : List Nat) (t : Nat) : Bool :=
  waitOutcome n us t == some 2

/-! ### Theorems -/

/-- Claim C1, counterexample: with the server lock held by token 2, a
guarded read through token 1 does not fail with `LockExpired(1)` — the
client panics on the unwrapped `None` instead. -/
theorem mutex_guard_acquire_panics_cex :
    (Guard.acquire natCodec 1 ⟨some "5", some "2"⟩ ⟨"k", none⟩).2
        = GuardReadRes.panicked
      ∧ (GuardReadRes.panicked : GuardReadRes Nat)
        ≠ GuardReadRes.err_lock_expired 1 := by
  decide

/-- Claim C1, amended: `Guard::store` writes the serialization of `v`
to `K` and returns `Ok` exactly when `K:lock` equals the token; on a
mismatch it returns `LockExpired(U)` and leaves `K` (and the cache)
unchanged. A guarded read through a stale token fails — but by
panicking on the unwrapped `None`, not with a `LockExpired` error. -/
theorem mutex_guard_store_load_gate (c : Codec α) (u : Nat) (st : MxState)
    (cell : Cell α) (v : α) :
    (st.lock = some (toString u) →
        Guard.store c u st cell v
          = ({ st with value := some (c.encode v) },
             { cell with cache := some v }, .ok ()))
  ∧ (st.lock ≠ some (toString u) →
        Guard.store c u st cell v = (st, cell, .error (.lock_expired u)))
  ∧ (st.lock ≠ some (toString u) →
        (Guard.acquire c u st cell).2 = .panicked) := by
  refine ⟨fun h => ?_, fun h => ?_, fun h => ?_⟩
  · simp [Guard.store, store_script, h]
  · simp [Guard.store, store_script, h]
  · simp [Guard.acquire, Guard.try_get, load_script, h]

theorem mutex_guard_store_load_gate_witness :
    (Guard.store natCodec 1 ⟨none, some "1"⟩ (⟨"k", none⟩ : Cell Nat) 5).1
        = ⟨some "5", some "1"⟩
  ∧ (Guard.store natCodec 1 ⟨none, some "1"⟩ (⟨"k", none⟩ : Cell Nat) 5).2.1
        = ⟨"k", some 5⟩
  ∧ (Guard.store natCodec 1 ⟨none, some "2"⟩ (⟨"k", none⟩ : Cell Nat) 5).2.1
        = ⟨"k", none⟩
  ∧ (Guard.acquire natCodec 1 ⟨none, some "2"⟩ (⟨"k", none⟩ : Cell Nat)).2
        = .panicked := by
  have h1 := (mutex_guard_store_load_gate natCodec 1 ⟨none, some "1"⟩
    (⟨"k", none⟩ : Cell Nat) 5).1 (by decide)
  have h2 := (mutex_guard_store_load_gate natCodec 1 ⟨none, some "2"⟩
    (⟨"k", none⟩ : Cell Nat) 5).2.1 (by decide)
  have h3 := (mutex_guard_store_load_gate natCodec 1 ⟨none, some "2"⟩
    (⟨"k", none⟩ : Cell Nat) 5).2.2 (by decide)
  refine ⟨?_, ?_, ?_, h3⟩
  · rw [h1]; decide
  · rw [h1]
  · rw [h2]

/-- Claim C2: `SET_LOAD_SCRIPT` compares the stored order and the
incoming counter as Lua STRINGS. Writing counter 2 against stored
order "10" succeeds (lexicographically "10" < "2") and drops `K:order`
from 10 to 2, while writing counter 10 against stored order "9" is
rejected although 10 > 9 — contradicting the script's own doc comment
("set the value if order is greater than the current order"). -/
theorem set_load_script_order_not_monotone :
    set_load_script ⟨some "x", some "10"⟩ "2" "y"
        = (⟨some "y", some "2"⟩, (some "y", "2"))
  ∧ set_load_script ⟨some "x", some "9"⟩ "10" "y"
        = (⟨some "x", some "9"⟩, (some "x", "9"))
  ∧ parseOrder "2" < parseOrder "10"
  ∧ parseOrder "9" < parseOrder "10" := by
  decide

/-- Claim C3: `RwLock::read`'s `execute_script` passes only the key and
the uuid, so `READER_LOCK`'s ttl argument `ARGV[3]` is nil: on a free
key (no `K:lock`, no writer intent) the `SET ... EX nil` raises a Lua
error instead of creating `K:reader_locks:U` and returning 1. The two
refusal gates of the claim do hold: the script returns 0 when `K:lock`
exists and when some `K:writer_waiting_list:*` key exists. -/
theorem reader_lock_invocation_missing_ttl :
    rwlock_read_invoke ⟨none, [], [], none⟩ 1 = (⟨none, [], [], none⟩, .err)
  ∧ (reader_lock_script ⟨some "9", [], [], none⟩ "1" none).2 = .ret 0
  ∧ (reader_lock_script ⟨none, [], ["7"], none⟩ "1" none).2 = .ret 0
  ∧ (reader_lock_script ⟨none, [], [], none⟩ "1" (some 5)).2 = .ret 1 := by
  decide

/-- Claim C5, counterexample: a client with counter 9 stores a value
whose serialization already sits under `K` with `K:order = "9"`.
The incremented counter is 10; the script rejects the write
(lexicographically "9" < "10" is false) and replies `("7", "9")` —
not `(serialization, counter) = ("7", "10")` — yet `store` returns
`Ok`, because the code checks `counter >= order`, not equality. -/
theorem set_load_store_win_check_cex :
    (SetLoad.store natCodec ⟨9, none⟩ ⟨some "7", some "9"⟩ 7).2.2 = true
  ∧ (set_load_script ⟨some "7", some "9"⟩ (toString (9 + 1))
        (natCodec.encode 7)).2
      ≠ (some (natCodec.encode 7), toString (9 + 1)) := by
  decide

/-- Claim C5, amended: `store(v)` increments the local counter by one
and invokes `SET_LOAD_SCRIPT` once; it returns `Ok` (caching `v`)
exactly when the replied value equals the serialization of `v` AND the
replied order is at most the incremented counter (the source checks
`counter >= order && v == val_json`, not pair equality). -/
theorem set_load_store_win_check (c : Codec α) (cl : SLClient α)
    (st : SLState) (v : α) :
    ((SetLoad.store c cl st v).1.counter = cl.counter + 1)
  ∧ ((SetLoad.store c cl st v).2.1
      = (set_load_script st (toString (cl.counter + 1)) (c.encode v)).1)
  ∧ ((SetLoad.store c cl st v).2.2 = true ↔
      (set_load_script st (toString (cl.counter + 1)) (c.encode v)).2.1
          = some (c.encode v)
      ∧ parseOrder
          (set_load_script st (toString (cl.counter + 1)) (c.encode v)).2.2
        ≤ cl.counter + 1)
  ∧ ((SetLoad.store c cl st v).2.2 = true →
      (SetLoad.store c cl st v).1.cache = some v) := by
  simp only [SetLoad.store]
  rcases hrv : (set_load_script st (toString (cl.counter + 1))
      (c.encode v)).2.1 with _ | rv
  · simp [hrv]
  · by_cases hw : parseOrder
        (set_load_script st (toString (cl.counter + 1)) (c.encode v)).2.2
          ≤ cl.counter + 1 ∧ rv = c.encode v
    · simp only [hrv]
      rw [if_pos hw]
      refine ⟨rfl, rfl, ?_, fun _ => rfl⟩
      simp [hrv, hw.1, hw.2]
    · simp only [hrv]
      rw [if_neg hw]
      refine ⟨rfl, rfl, ?_, fun hfalse => absurd hfalse (by simp)⟩
      simp only [hrv]
      constructor
      · intro hfalse; exact absurd hfalse (by simp)
      · intro hcond
        exact absurd ⟨hcond.2, Option.some.inj hcond.1⟩ hw

theorem set_load_store_win_check_witness :
    (SetLoad.store natCodec ⟨0, none⟩ ⟨none, none⟩ 5).1.cache = some 5
  ∧ (SetLoad.store natCodec ⟨0, none⟩ ⟨none, none⟩ 5).1.counter = 0 + 1 := by
  have h := set_load_store_win_check natCodec ⟨0, none⟩ ⟨none, none⟩ 5
  exact ⟨h.2.2.2 (by decide), h.1⟩

/-- Claim C6, counterexample: `acquire` on a key with no server entry
panics (unwrap of `None`) — no `NotFound` error result is surfaced —
and `into_inner` with an empty cache likewise panics (its expect),
returning no value. -/
theorem acquire_into_inner_not_found_cex :
    (Generic.acquire natCodec Server.empty ⟨"a", none⟩).2
        = AcquireRes.panicked
  ∧ (AcquireRes.panicked : AcquireRes Nat) ≠ AcquireRes.err_not_found
  ∧ (Generic.into_inner Server.empty (⟨"a", none⟩ : Cell Nat)).2 = none := by
  decide

/-- Claim C6, amended: both operations do fail on the absent value, but
by panicking rather than by returning a `NotFound` error: `acquire` on
a missing key yields the panic outcome (never `err_not_found`, which no
code path produces), and `into_inner` on an empty cache yields no value
(its server-side `DEL` having already run). -/
theorem acquire_into_inner_panics (c : Codec α) (srv : Server)
    (cellA cellB : Cell α) (hA : srv cellA.key = none)
    (hB : cellB.cache = none) :
    (Generic.acquire c srv cellA).2 = .panicked
  ∧ (Generic.into_inner srv cellB).2 = none := by
  constructor
  · simp [Generic.acquire, Generic.try_get, hA]
  · simp [Generic.into_inner, hB]

theorem acquire_into_inner_panics_witness :
    (Generic.acquire natCodec Server.empty (⟨"a", none⟩ : Cell Nat)).2
        = .panicked
  ∧ (Generic.into_inner Server.empty (⟨"a", none⟩ : Cell Nat)).2 = none :=
  acquire_into_inner_panics natCodec Server.empty ⟨"a", none⟩ ⟨"a", none⟩
    (by decide) (by decide)

/-- Claim C7: a binary value operation between two cells consumes the
right-hand cell via `into_inner`: on success (right-hand cache present)
the right-hand server key is deleted, so a subsequent `with_load` of
that key (the left-hand key being a different key) yields a handle with
an empty cache. Holds for every operator function `f`. -/
theorem bin_op_consumes_rhs (c : Codec α) (f : α → α → α) (srv : Server)
    (lhs rhs : Cell α) (rv : α) (hr : rhs.cache = some rv)
    (hk : rhs.key ≠ lhs.key) :
    ∃ srv2 cell2, bin_op_cells c f srv lhs rhs = (srv2, some cell2)
      ∧ srv2 rhs.key = none
      ∧ Generic.with_load c srv2 rhs.key = some ⟨rhs.key, none⟩
      ∧ Generic.cached (⟨rhs.key, none⟩ : Cell α) = none := by
  obtain ⟨lk, lc⟩ := lhs
  obtain ⟨rk, rc⟩ := rhs
  simp only at hr hk ⊢
  subst hr
  have hsrv : ∀ w, (Server.setKey (Server.delKey srv rk) lk w) rk = none := by
    intro w; simp [Server.setKey, Server.delKey, hk]
  cases lc with
  | none =>
    refine ⟨Server.setKey (Server.delKey srv rk) lk (c.encode rv),
      ⟨lk, some rv⟩, rfl, hsrv _, ?_, rfl⟩
    simp [Generic.with_load, Generic.try_get, hsrv]
  | some lv =>
    refine ⟨Server.setKey (Server.delKey srv rk) lk (c.encode (f lv rv)),
      ⟨lk, some (f lv rv)⟩, rfl, hsrv _, ?_, rfl⟩
    simp [Generic.with_load, Generic.try_get, hsrv]

theorem bin_op_consumes_rhs_witness :
    ∃ srv2 cell2,
      bin_op_cells natCodec Nat.add Server.empty
          (⟨"a", some 1⟩ : Cell Nat) ⟨"b", some 2⟩ = (srv2, some cell2)
      ∧ srv2 "b" = none
      ∧ Generic.with_load natCodec srv2 "b" = some ⟨"b", none⟩
      ∧ Generic.cached (⟨"b", none⟩ : Cell Nat) = none :=
  bin_op_consumes_rhs natCodec Nat.add Server.empty ⟨"a", some 1⟩
    ⟨"b", some 2⟩ 2 (by decide) (by decide)

/-- Claim C8, counterexample: `ListCache::insert` mutates the local
deque BEFORE issuing any server command — with the server call failing
(no server mutation possible), the cache still gains the element, so
the cache is left ahead of the server. -/
theorem lc_insert_cache_first_cex :
    lc_insert false (⟨[], []⟩ : LCState Nat) 0 7 = ⟨[], [7]⟩
  ∧ (⟨[], [7]⟩ : LCState Nat).cache ≠ (⟨[], []⟩ : LCState Nat).cache := by
  decide

/-- Claim C8, amended: only `push_front` and `push_back` are
server-first with the cache protected by the panic on failure;
`pop_front`/`pop_back` issue the server command first but swallow its
failure (the source builds the reply with `.ok()`) and pop the cache
regardless; `insert` mutates the cache before the server command. So a
failed server call leaves the cache ahead for the pops and for insert,
and the claimed guarantee holds only for the two pushes. -/
theorem cached_list_mutation_order :
    (∀ (s : LCState α) (v : α), lc_push_back false s v = s)
  ∧ (∀ (s : LCState α) (v : α), lc_push_front false s v = s)
  ∧ (∀ s : LCState α, lc_pop_back false s = ⟨s.server, s.cache.dropLast⟩)
  ∧ (∀ s : LCState α, lc_pop_front false s = ⟨s.server, s.cache.tail⟩)
  ∧ (∀ (s : LCState α) (i : Nat) (v : α),
      lc_insert false s i v = ⟨s.server, dequeInsert i v s.cache⟩) := by
  refine ⟨fun s v => ?_, fun s v => ?_, fun s => ?_, fun s => ?_,
    fun s i v => ?_⟩ <;> simp [lc_push_back, lc_push_front, lc_pop_back,
      lc_pop_front, lc_insert]

/-! Barrier trace lemmas (for claim C4). -/

theorem addWaiting_length_le (u : Nat) (w : List Nat) :
    w.length ≤ (addWaiting u w).length := by
  unfold addWaiting
  split
  · exact Nat.le_refl _
  · exact Nat.le_succ _

theorem runBarrier_cons (n u : Nat) (us : List Nat) (s : BState) :
    runBarrier n s (u :: us)
      = (u, (waiting_script n u s).2, (waiting_script n u s).1)
          :: runBarrier n (waiting_script n u s).1 us := rfl

theorem waiting_script_waiting (n u : Nat) (s : BState) :
    (waiting_script n u s).1.waiting = addWaiting u s.waiting := by
  cases hl : s.leader
  · by_cases hlen : (addWaiting u s.waiting).length < n <;>
      simp [waiting_script, hl, hlen]
  · simp [waiting_script, hl]

theorem waiting_script_mono (n u : Nat) (s : BState) :
    s.waiting.length ≤ (waiting_script n u s).1.waiting.length := by
  rw [waiting_script_waiting]
  exact addWaiting_length_le u s.waiting

theorem waiting_script_some (n u l : Nat) (s : BState)
    (h : s.leader = some l) :
    (waiting_script n u s).1.leader = some l
  ∧ ((waiting_script n u s).2 = 2 ↔ u = l)
  ∧ (waiting_script n u s).2 ≠ 0 := by
  by_cases hlu : l = u
  · simp [waiting_script, h, hlu]
  · simp [waiting_script, h, hlu, Ne.symm hlu]

theorem waiting_script_none (n u : Nat) (s : BState)
    (h : s.leader = none) :
    ((waiting_script n u s).2 = 0 ∧ (waiting_script n u s).1.leader = none)
  ∨ ((waiting_script n u s).2 = 2
      ∧ (waiting_script n u s).1.leader = some u
      ∧ n ≤ (waiting_script n u s).1.waiting.length) := by
  by_cases hlen : (addWaiting u s.waiting).length < n
  · left; simp [waiting_script, h, hlen]
  · right
    refine ⟨by simp [waiting_script, h, hlen],
      by simp [waiting_script, h, hlen], ?_⟩
    rw [waiting_script_waiting]
    exact Nat.le_of_not_lt hlen

theorem run_leader_fixed (n l : Nat) (us : List Nat) :
    ∀ s : BState, s.leader = some l →
      ∀ e ∈ runBarrier n s us,
        e.2.2.leader = some l ∧ (e.2.1 = 2 ↔ e.1 = l) ∧ e.2.1 ≠ 0 := by
  induction us with
  | nil => intro s _ e he; simp [runBarrier] at he
  | cons u us ih =>
    intro s hs e he
    rw [runBarrier_cons] at he
    have hstep := waiting_script_some n u l s hs
    rcases List.mem_cons.mp he with hhead | hmem
    · subst hhead
      exact ⟨hstep.1, hstep.2.1, hstep.2.2⟩
    · exact ih _ hstep.1 e hmem

theorem run_quorum (n : Nat) (us : List Nat) :
    ∀ s : BState, (s.leader.isSome → n ≤ s.waiting.length) →
      ∀ e ∈ runBarrier n s us, e.2.1 ≠ 0 → n ≤ e.2.2.waiting.length := by
  induction us with
  | nil => intro s _ e he; simp [runBarrier] at he
  | cons u us ih =>
    intro s hinv e he hne0
    rw [runBarrier_cons] at he
    have hpost : (waiting_script n u s).1.leader.isSome →
        n ≤ (waiting_script n u s).1.waiting.length := by
      intro hsome
      cases hl : s.leader with
      | some l =>
        exact le_trans (hinv (by simp [hl])) (waiting_script_mono n u s)
      | none =>
        rcases waiting_script_none n u s hl with ⟨_, hnone⟩ | ⟨_, _, hq⟩
        · rw [hnone] at hsome; simp at hsome
        · exact hq
    rcases List.mem_cons.mp he with hhead | hmem
    · subst hhead
      cases hl : s.leader with
      | some l =>
        exact hpost (by simp [(waiting_script_some n u l s hl).1])
      | none =>
        rcases waiting_script_none n u s hl with ⟨h0, _⟩ | ⟨_, _, hq⟩
        · exact absurd h0 hne0
        · exact hq
    · exact ih _ hpost e hmem hne0

theorem run_tokens (n : Nat) (us : List Nat) :
    ∀ s : BState, ∀ e ∈ runBarrier n s us, e.1 ∈ us := by
  induction us with
  | nil => intro s e he; simp [runBarrier] at he
  | cons u us ih =>
    intro s e he
    rw [runBarrier_cons] at he
    rcases List.mem_cons.mp he with hhead | hmem
    · subst hhead; exact List.mem_cons_self _ _
    · exact List.mem_cons_of_mem _ (ih _ e hmem)

theorem run_two_unique (n : Nat) (us : List Nat) :
    ∀ s : BState, s.leader = none →
      ∀ e ∈ runBarrier n s us, e.2.1 = 2 →
      ∀ e2 ∈ runBarrier n s us, e2.2.1 = 2 → e2.1 = e.1 := by
  induction us with
  | nil => intro s _ e he; simp [runBarrier] at he
  | cons u us ih =>
    intro s hs e he h2 e2 he2 h22
    rw [runBarrier_cons] at he he2
    rcases waiting_script_none n u s hs with ⟨h0, hnone⟩ | ⟨_, hsome, _⟩
    · rcases List.mem_cons.mp he with hhead | hmem
      · subst hhead; exact absurd h2 (by simp [h0])
      · rcases List.mem_cons.mp he2 with hhead2 | hmem2
        · subst hhead2; exact absurd h22 (by simp [h0])
        · exact ih _ hnone e hmem h2 e2 hmem2 h22
    · have htok : ∀ e3 ∈ runBarrier n (waiting_script n u s).1 us,
          e3.2.1 = 2 → e3.1 = u := fun e3 he3 h32 =>
        ((run_leader_fixed n u us _ hsome e3 he3).2.1).mp h32
      have he1tok : e.1 = u := by
        rcases List.mem_cons.mp he with hhead | hmem
        · subst hhead; rfl
        · exact htok e hmem h2
      have he2tok : e2.1 = u := by
        rcases List.mem_cons.mp he2 with hhead | hmem
        · subst hhead; rfl
        · exact htok e2 hmem h22
      rw [he1tok, he2tok]

theorem run_exists_two (n : Nat) (us : List Nat) :
    ∀ s : BState, s.leader = none →
      (∃ e ∈ runBarrier n s us, e.2.1 ≠ 0) →
      ∃ e2 ∈ runBarrier n s us, e2.2.1 = 2 := by
  induction us with
  | nil =>
    rintro s _ ⟨e, he, _⟩
    simp [runBarrier] at he
  | cons u us ih =>
    rintro s hs ⟨e, he, hne0⟩
    rw [runBarrier_cons] at he
    rcases waiting_script_none n u s hs with ⟨h0, hnone⟩ | ⟨hr2, _, _⟩
    · rcases List.mem_cons.mp he with hhead | hmem
      · subst hhead; exact absurd h0 hne0
      · obtain ⟨e2, he2, h22⟩ := ih _ hnone ⟨e, hmem, hne0⟩
        refine ⟨e2, ?_, h22⟩
        rw [runBarrier_cons]
        exact List.mem_cons_of_mem _ he2
    · refine ⟨(u, (waiting_script n u s).2, (waiting_script n u s).1),
        ?_, hr2⟩
      rw [runBarrier_cons]
      exact List.mem_cons_self _ _

theorem waitOutcome_def (n : Nat) (us : List Nat) (t : Nat) :
    waitOutcome n us t = firstNonzero t (runBarrier n BState.init us) :=
  rfl

theorem firstNonzero_cons_skip (t : Nat) (e : Nat × Nat × BState)
    (tr : List (Nat × Nat × BState)) (h : ¬(e.1 = t ∧ e.2.1 ≠ 0)) :
    firstNonzero t (e :: tr) = firstNonzero t tr := by
  simp only [firstNonzero, List.filter_cons]
  rw [if_neg (by simpa using h)]

theorem firstNonzero_cons_hit (t : Nat) (e : Nat × Nat × BState)
    (tr : List (Nat × Nat × BState)) (h : e.1 = t ∧ e.2.1 ≠ 0) :
    firstNonzero t (e :: tr) = some e.2.1 := by
  simp only [firstNonzero, List.filter_cons]
  rw [if_pos (by simpa using h)]
  rfl

theorem firstNonzero_spec (t r : Nat) :
    ∀ tr : List (Nat × Nat × BState), firstNonzero t tr = some r →
      ∃ e ∈ tr, e.1 = t ∧ e.2.1 = r ∧ r ≠ 0 := by
  intro tr
  induction tr with
  | nil => intro h; simp [firstNonzero] at h
  | cons e tr ih =>
    intro h
    by_cases hc : e.1 = t ∧ e.2.1 ≠ 0
    · rw [firstNonzero_cons_hit t e tr hc] at h
      have hr : e.2.1 = r := Option.some.inj h
      exact ⟨e, List.mem_cons_self _ _, hc.1, hr, hr ▸ hc.2⟩
    · rw [firstNonzero_cons_skip t e tr hc] at h
      obtain ⟨e2, he2, h3⟩ := ih h
      exact ⟨e2, List.mem_cons_of_mem _ he2, h3⟩

theorem run_elected_outcome (n : Nat) (us : List Nat) :
    ∀ s : BState, s.leader = none →
      ∀ e ∈ runBarrier n s us, e.2.1 = 2 →
        firstNonzero e.1 (runBarrier n s us) = some 2 := by
  induction us with
  | nil => intro s _ e he; simp [runBarrier] at he
  | cons u us ih =>
    intro s hs e he h2
    rw [runBarrier_cons] at he ⊢
    rcases waiting_script_none n u s hs with ⟨h0, hnone⟩ | ⟨hr2, hsome, _⟩
    · rw [firstNonzero_cons_skip e.1 _ _ (by simp [h0])]
      rcases List.mem_cons.mp he with hhead | hmem
      · subst hhead; exact absurd h2 (by simp [h0])
      · exact ih _ hnone e hmem h2
    · have htok : e.1 = u := by
        rcases List.mem_cons.mp he with hhead | hmem
        · subst hhead; rfl
        · exact ((run_leader_fixed n u us _ hsome e hmem).2.1).mp h2
      rw [htok, firstNonzero_cons_hit u _ _ ⟨rfl, by simp [hr2]⟩, hr2]

theorem filter_not_length (p : Nat → Bool) (l : List Nat) :
    (l.filter p).length + (l.filter (fun x => !(p x))).length = l.length := by
  induction l with
  | nil => rfl
  | cons a l ih =>
    cases hp : p a <;> simp [List.filter_cons, hp] <;> omega

/-- Claim C4: in the no-expiry atomic model of `WAITING_SCRIPT`, for
every interleaved trace of invocations from a fresh generation whose
parties `ts` have pairwise distinct tokens and all complete their
`wait()`: exactly one party is the leader (`is_leader = true`), the
remaining `|ts| - 1` parties get `is_leader = false`, and no invocation
returns non-zero before `n` waiting keys are simultaneously present on
the server. -/
theorem barrier_leader_unique_quorum (n : Nat) (us ts : List Nat)
    (hcover : ∀ u ∈ us, u ∈ ts) (hnd : ts.Nodup) (hne : ts ≠ [])
    (hall : ∀ t ∈ ts, (waitOutcome n us t).isSome) :
    (ts.filter (fun t => isLeaderOutcome n us t)).length = 1
  ∧ (ts.filter (fun t => !(isLeaderOutcome n us t))).length + 1 = ts.length
  ∧ ∀ e ∈ runBarrier n BState.init us, e.2.1 ≠ 0 →
      n ≤ e.2.2.waiting.length := by
  have hinit : BState.init.leader = none := rfl
  obtain ⟨t0, ht0⟩ : ∃ t, t ∈ ts := by
    cases ts with
    | nil => exact absurd rfl hne
    | cons a l => exact ⟨a, List.mem_cons_self _ _⟩
  obtain ⟨r0, hr0⟩ := Option.isSome_iff_exists.mp (hall t0 ht0)
  rw [waitOutcome_def] at hr0
  obtain ⟨e0, he0, _, he0r, hr0ne⟩ := firstNonzero_spec t0 r0 _ hr0
  obtain ⟨e2, he2, h22⟩ := run_exists_two n us BState.init hinit
    ⟨e0, he0, by rw [he0r]; exact hr0ne⟩
  have hiff : ∀ t, isLeaderOutcome n us t = true ↔ t = e2.1 := by
    intro t
    constructor
    · intro h
      have hw : firstNonzero t (runBarrier n BState.init us) = some 2 := by
        rw [← waitOutcome_def]
        simpa [isLeaderOutcome] using h
      obtain ⟨e, he, het, her, _⟩ := firstNonzero_spec t 2 _ hw
      have huniq := run_two_unique n us BState.init hinit e2 he2 h22 e he her
      rw [← het, huniq]
    · intro h
      subst h
      have helected := run_elected_outcome n us BState.init hinit e2 he2 h22
      simp [isLeaderOutcome, waitOutcome_def, helected]
  have hpred : ∀ t, isLeaderOutcome n us t = (t == e2.1) := by
    intro t
    by_cases h : t = e2.1
    · subst h
      rw [(hiff e2.1).mpr rfl]
      simp
    · cases hb : isLeaderOutcome n us t
      · simp [h]
      · exact absurd ((hiff t).mp hb) h
  have hl_mem : e2.1 ∈ ts := hcover _ (run_tokens n us BState.init e2 he2)
  have hfun : (fun t => isLeaderOutcome n us t) = (fun t => t == e2.1) :=
    funext hpred
  have hcount : (ts.filter (fun t => isLeaderOutcome n us t)).length = 1 := by
    rw [hfun, ← List.countP_eq_length_filter, ← List.count_eq_countP]
    exact List.count_eq_one_of_mem hnd hl_mem
  refine ⟨hcount, ?_, ?_⟩
  · have hsplit := filter_not_length (fun t => isLeaderOutcome n us t) ts
    omega
  · exact run_quorum n us BState.init (by intro h; simp [BState.init] at h)

theorem barrier_leader_unique_quorum_witness :
    (([1, 2] : List Nat).filter (fun t => isLeaderOutcome 2 [1, 2, 1] t)).length = 1
  ∧ (([1, 2] : List Nat).filter
        (fun t => !(isLeaderOutcome 2 [1, 2, 1] t))).length + 1
      = ([1, 2] : List Nat).length
  ∧ ∀ e ∈ runBarrier 2 BState.init [1, 2, 1], e.2.1 ≠ 0 →
      2 ≤ e.2.2.waiting.length :=
  barrier_leader_unique_quorum 2 [1, 2, 1] [1, 2] (by decide) (by decide)
    (by decide) (by decide)

/-- Claim C9: after `with_value(v, K)`, a freshly constructed
`with_load(K)` handle (no interleaved writer) caches `Some v`,
provided the codec round-trips the payload. -/
theorem with_value_with_load_round_trip (c : Codec α) (srv : Server)
    (k : String) (v : α) (h : c.decode (c.encode v) = some v) :
    Generic.cached (Generic.with_value c srv k v).2 = some v
  ∧ Generic.with_load c (Generic.with_value c srv k v).1 k
      = some ⟨k, some v⟩
  ∧ Generic.cached (⟨k, some v⟩ : Cell α) = some v := by
  refine ⟨rfl, ?_, rfl⟩
  simp [Generic.with_load, Generic.try_get, Generic.with_value,
    Generic.store, Server.setKey, h]

theorem with_value_with_load_round_trip_witness :
    Generic.cached (Generic.with_value natCodec Server.empty "a" 5).2
        = some 5
  ∧ Generic.with_load natCodec
        (Generic.with_value natCodec Server.empty "a" 5).1 "a"
      = some ⟨"a", some 5⟩
  ∧ Generic.cached (⟨"a", some 5⟩ : Cell Nat) = some 5 :=
  with_value_with_load_round_trip natCodec Server.empty "a" 5 (by decide)

/-- Claim C10: on a cell whose cache is `None`, every binary operator
(via `apply_operator`) and both compound assignments pass the
right-hand value through untouched — the operator function is never
applied: the result cache is `Some rhs` and the server copy under the
left-hand key becomes the serialization of `rhs`, uniformly in the
operator function. -/
theorem operator_empty_cache_takes_rhs (c : Codec α) (srv : Server)
    (me : Cell α) (rhs : α) (hc : me.cache = none) :
    (∀ f : α → α → α, apply_operator c f srv me rhs
        = (srv.setKey me.key (c.encode rhs), ⟨me.key, some rhs⟩))
  ∧ (∀ addFn : α → α → α, add_assign c addFn srv me rhs
        = (srv.setKey me.key (c.encode rhs), ⟨me.key, some rhs⟩))
  ∧ (∀ subFn : α → α → α, sub_assign c subFn srv me rhs
        = (srv.setKey me.key (c.encode rhs), ⟨me.key, some rhs⟩)) := by
  obtain ⟨k, cache⟩ := me
  simp only [Cell.mk.injEq] at hc ⊢
  subst hc
  exact ⟨fun f => rfl, fun addFn => rfl, fun subFn => rfl⟩

theorem operator_empty_cache_takes_rhs_witness :
    (apply_operator natCodec Nat.mul Server.empty (⟨"a", none⟩ : Cell Nat) 7).2
        = ⟨"a", some 7⟩
  ∧ (add_assign natCodec Nat.add Server.empty (⟨"a", none⟩ : Cell Nat) 7).2
        = ⟨"a", some 7⟩
  ∧ (sub_assign natCodec Nat.sub Server.empty (⟨"a", none⟩ : Cell Nat) 7).2
        = ⟨"a", some 7⟩ := by
  have h := operator_empty_cache_takes_rhs natCodec Server.empty
    (⟨"a", none⟩ : Cell Nat) 7 (by decide)
  refine ⟨?_, ?_, ?_⟩
  · rw [h.1 Nat.mul]
  · rw [h.2.1 Nat.add]
  · rw [h.2.2 Nat.sub]

end DTypes
